import Mathlib

/-!
# Verification of the Ultra-Claude workflow dashboard client

A shallow embedding of the browser-side workflow client
(`src/web/static/js/workflow.js`, with `escapeHtml` also present in
`src/web/static/js/app.js`).  Pure rendering helpers become Lean
functions; the stateful parts of the `workflowApp` object become
explicit state records with one Lean function per JS handler.  HTML
markup produced by the JS is abstracted to structured values
(`Block`, `Action`, `BudgetBar`, …) that record exactly which widgets
are emitted, with which payload, and in which order; JS numbers are
modelled as `ℚ` (`Int`/`Nat` where the source only ever holds
integers), and JS `undefined`/`null` as `Option`.
-/

namespace Workflow

/-! ## Phase executions and `groupPhases`

`groupPhases` (workflow.js:381-411) receives the list
`execution.phase_executions` (or the mapped pending template phases),
sorts a copy by `(a.order || 0) - (b.order || 0)` — ECMAScript
`Array.prototype.sort` is a stable ascending sort under this numeric
comparator, which we realise with the stable `List.insertionSort` —
and then walks the sorted array building HTML blocks.  Only the
fields read by `groupPhases` are modelled; absent JS fields are
`Option`. -/

structure PhaseExec where
  phase_id : String
  parallel_with : Option String
  order : Option Int
  deriving DecidableEq, Repr

/-- JS `(a.order || 0)`: a missing `order` (and JS `0` itself) reads as `0`. -/
def PhaseExec.orderVal (p : PhaseExec) : Int :=
  p.order.getD 0

/-- One rendered chunk of the pipeline: either a parallel group
(`<div class="parallel-group">` holding the card of the leader followed by
the member cards) or a standalone phase card. -/
inductive Block where
  | group (leader : PhaseExec) (members : List PhaseExec)
  | single (phase : PhaseExec)
  deriving DecidableEq, Repr

/-- JS `sorted.filter(p => p.parallel_with === phase.phase_id)` (workflow.js:388). -/
def parallelOf (sorted : List PhaseExec) (phase : PhaseExec) : List PhaseExec :=
  sorted.filter (fun p => p.parallel_with == some phase.phase_id)

/-- The main `while (i < sorted.length)` loop of `groupPhases`
(workflow.js:386-408).  At index `i` it renders a parallel group when
some phases reference `sorted[i]` (skipping `parallel.length + 1`
slots), renders a standalone card when none do, and otherwise only
advances (`else { i++ }` — unreachable, since the guard of the second
branch is the negation of the first). -/
def groupPhasesAux (sorted : List PhaseExec) (i : Nat) : List Block :=
  if h : i < sorted.length then
    let phase := sorted.get ⟨i, h⟩
    let parallel := parallelOf sorted phase
    if parallel.length > 0 then
      Block.group phase parallel :: groupPhasesAux sorted (i + parallel.length + 1)
    else if !(sorted.any (fun p => p.parallel_with == some phase.phase_id)) then
      Block.single phase :: groupPhasesAux sorted (i + 1)
    else
      groupPhasesAux sorted (i + 1)
  else []
termination_by sorted.length - i
decreasing_by
  · omega
  · omega
  · omega

/-- JS `[...phases].sort((a, b) => (a.order || 0) - (b.order || 0))`
(workflow.js:382): stable ascending sort on the `order` key. -/
def sortPhases (phases : List PhaseExec) : List PhaseExec :=
  phases.insertionSort (fun a b => a.orderVal ≤ b.orderVal)

instance : IsTotal PhaseExec (fun a b => a.orderVal ≤ b.orderVal) :=
  ⟨fun a b => le_total a.orderVal b.orderVal⟩

instance : IsTrans PhaseExec (fun a b => a.orderVal ≤ b.orderVal) :=
  ⟨fun _ _ _ hab hbc => le_trans hab hbc⟩

/-- Function `groupPhases` (workflow.js:381-411), with the produced HTML
abstracted to the sequence of blocks it concatenates. -/
def groupPhases (phases : List PhaseExec) : List Block :=
  groupPhasesAux (sortPhases phases) 0

/-- The phase cards a block renders, in document order. -/
def blockPhases : Block → List PhaseExec
  | .group leader members => leader :: members
  | .single p => [p]

/-- All phase cards of a rendered pipeline, in document order. -/
def renderedPhases (blocks : List Block) : List PhaseExec :=
  blocks.flatMap blockPhases

/-- The precondition under which the `i += parallel.length + 1` skip of
`groupPhases` is sound: in the order-sorted list, the phases that
reference a given phase via `parallel_with` sit exactly in the
contiguous slots immediately after it. -/
def ParallelAdjacent (sorted : List PhaseExec) : Prop :=
  ∀ i (h : i < sorted.length),
    parallelOf sorted (sorted.get ⟨i, h⟩) =
      (sorted.drop (i + 1)).take (parallelOf sorted (sorted.get ⟨i, h⟩)).length

instance (sorted : List PhaseExec) : Decidable (ParallelAdjacent sorted) :=
  Nat.decidableBallLT _ _

/-- No `parallel_with` chains: a phase that other phases reference via
`parallel_with` does not itself carry a `parallel_with` reference.
Without this, a chain such as `[R, P with R, Q with P]` satisfies
`ParallelAdjacent` yet `groupPhases` renders `Q` standalone and never
groups `P` with `Q`: the skip from `R` lands directly on `Q`, so `P`
is only ever emitted as a member of the group of `R`. -/
def NoChainedParallel (sorted : List PhaseExec) : Prop :=
  ∀ p ∈ sorted, parallelOf sorted p ≠ [] → p.parallel_with = none

instance (sorted : List PhaseExec) : Decidable (NoChainedParallel sorted) :=
  List.decidableBAll _ sorted

/-! ## Executions and `renderActions` -/

/-- The fields of an execution object read by the rendering helpers
under scrutiny (`renderActions`, `renderPipeline`). -/
structure Execution where
  id : String
  status : String
  task_description : String
  phase_executions : List PhaseExec
  deriving DecidableEq, Repr

/-- One action button emitted by `renderActions`, identified by the
`workflowApp` operation its `onclick` invokes. -/
inductive Action where
  | run (executionId : String)
  | cancel (executionId : String)
  | resume (executionId : String)
  | viewArtifacts (executionId : String)
  deriving DecidableEq, Repr

/-- Function `renderActions` (workflow.js:439-460): the sequence of buttons
pushed onto `actions`, abstracted by the operation each invokes. -/
def renderActions (execution : Execution) : List Action :=
  let actions : List Action := []
  let actions := if execution.status = "pending"
    then actions ++ [Action.run execution.id] else actions
  let actions := if execution.status = "running"
    then actions ++ [Action.cancel execution.id] else actions
  let actions := if execution.status = "paused"
    then actions ++ [Action.resume execution.id, Action.cancel execution.id] else actions
  let actions := if execution.status = "awaiting_approval"
    then actions ++ [Action.cancel execution.id] else actions
  let actions := if execution.status ∈ ["completed", "failed", "cancelled"]
    then actions ++ [Action.viewArtifacts execution.id] else actions
  actions


/-! ## `renderBudget` -/

/-- The budget snapshot object consumed by `renderBudget`
(workflow.js:462-480); `total_cost` and `limit` may be absent. -/
structure Budget where
  total_cost : Option ℚ
  limit : Option ℚ
  deriving DecidableEq, Repr

/-- The text node written into `#budget-text`: either
`"$used / $limit"` or just `"$used"`. -/
inductive BudgetText where
  | usedOverLimit (used limit : ℚ)
  | usedOnly (used : ℚ)
  deriving DecidableEq, Repr

/-- The rendered state of the budget bar: the CSS width of
`#budget-fill` (as a percentage), whether the `danger` / `warning`
classes are present, and the text shown. -/
structure BudgetBar where
  widthPercent : ℚ
  danger : Bool
  warning : Bool
  text : BudgetText
  deriving DecidableEq, Repr

/-- Function `renderBudget` (workflow.js:462-480).  `used` and `limit`
follow JS `budget.total_cost || 0` / `budget.limit || 0`; the `danger`
class is added when `percent > 80`, else `warning` when
`percent > 50`; the dollar-formatted strings are abstracted by the
`BudgetText` payloads. -/
def renderBudget (budget : Budget) : BudgetBar :=
  let used := budget.total_cost.getD 0
  let limit := budget.limit.getD 0
  let percent := if limit > 0 then min (used / limit * 100) 100 else 0
  { widthPercent := if limit > 0 then percent else 0
    danger := decide (percent > 80)
    warning := !(decide (percent > 80)) && decide (percent > 50)
    text := if limit > 0 then .usedOverLimit used limit else .usedOnly used }

/-! ## `escapeHtml`

`escapeHtml` (workflow.js:1046-1050, likewise `Toast.escapeHtml` and
`Autowrkers.escapeHtml` in app.js) writes the input into the `textContent` of a detached
`div` and reads back `innerHTML`.  Per the HTML
fragment-serialization algorithm this maps each character of the text
node independently: `&` to `&amp;`, `<` to `&lt;`, `>` to `&gt;` and
U+00A0 to `&nbsp;`, leaving every other character unchanged. -/

def escapeChar (c : Char) : String :=
  if c = '&' then "&amp;"
  else if c = '<' then "&lt;"
  else if c = '>' then "&gt;"
  else if c = '\u00A0' then "&nbsp;"
  else String.singleton c

def escapeHtmlAux : List Char → String
  | [] => ""
  | c :: cs => escapeChar c ++ escapeHtmlAux cs

def escapeHtml (str : String) : String :=
  escapeHtmlAux str.data



/-! ## The approval banner and its countdown

`showApprovalBanner` (workflow.js:690-741) stores
`pendingApproval = { message, timeoutSeconds, startedAt: Date.now() }`,
clears any existing countdown interval, runs `updateBanner()` once
synchronously, arms a 1-second interval re-running it, and finally
sets the banner display to `flex`.  `updateBanner` recomputes
`remaining = max(0, timeoutSeconds - (Date.now() - startedAt)/1000)`,
rewrites the banner markup (timer plus Approve/Reject buttons), and on
`remaining <= 0` shows a timed-out toast, clears the interval and
calls `hideApprovalBanner`.  Times are rationals in milliseconds
(`Date.now()` values); timeouts are in seconds, hence the `/ 1000`. -/

structure ApprovalPending where
  message : String
  timeoutSeconds : ℚ
  startedAt : ℚ
  deriving DecidableEq, Repr

/-- What the `approval-timer` span shows: `mins:secs` for a positive
remaining time (abstracted by the exact rational remaining, from which
the JS derives `floor` minutes and seconds), or the literal
`Expired`. -/
inductive TimerDisplay where
  | showing (remaining : ℚ)
  | expired
  deriving DecidableEq, Repr

/-- The banner-related slice of `workflowApp` state: the
`pendingApproval` field, whether the countdown interval is armed,
whether `#approval-banner` is displayed, the last timer text written
into its markup, and whether the timed-out toast has been shown. -/
structure BannerState where
  pendingApproval : Option ApprovalPending
  intervalActive : Bool
  bannerVisible : Bool
  timerText : Option TimerDisplay
  toastTimedOut : Bool
  deriving DecidableEq, Repr

def initialBannerState : BannerState :=
  ⟨none, false, false, none, false⟩

/-- Function `hideApprovalBanner` (workflow.js:743-753): clears
`pendingApproval`, clears the countdown interval and hides the
banner. -/
def hideApprovalBanner (st : BannerState) : BannerState :=
  { st with pendingApproval := none, intervalActive := false, bannerVisible := false }

/-- The `updateBanner` closure (workflow.js:709-736) at wall-clock
time `now` (ms).  When `pendingApproval` is `null` the JS throws a
`TypeError` on its first statement (reading `.startedAt`), so nothing
is mutated and the armed interval survives: the state is returned
unchanged. -/
def updateBanner (now : ℚ) (st : BannerState) : BannerState :=
  match st.pendingApproval with
  | none => st
  | some pa =>
      let elapsed := (now - pa.startedAt) / 1000
      let remaining := max 0 (pa.timeoutSeconds - elapsed)
      let st := { st with
        timerText := some (if remaining > 0 then .showing remaining else .expired) }
      if remaining ≤ 0 then
        hideApprovalBanner { st with toastTimedOut := true, intervalActive := false }
      else st

/-- Function `showApprovalBanner` (workflow.js:690-741) called at
wall-clock time `now` (ms).  Note the source order: the synchronous
`updateBanner()` runs *before* the interval is armed and before
`banner.style.display = 'flex'`. -/
def showApprovalBanner (message : String) (timeoutSeconds : ℚ) (now : ℚ)
    (st : BannerState) : BannerState :=
  let st := { st with pendingApproval := some ⟨message, timeoutSeconds, now⟩ }
  let st := { st with intervalActive := false }
  let st := updateBanner now st
  let st := { st with intervalActive := true }
  { st with bannerVisible := true }

/-- A sequence of 1-second interval callbacks at the given wall-clock
times: each fires only while the countdown interval is armed
(`clearInterval` stops all later callbacks). -/
def runTicks (ticks : List ℚ) (st : BannerState) : BannerState :=
  ticks.foldl (fun s t => if s.intervalActive then updateBanner t s else s) st

/-! ## WebSocket lifecycle and reconnection -/

/-- JS `this.maxWsReconnectAttempts = 5` (workflow.js:20). -/
def maxWsReconnectAttempts : Nat := 5

/-- One WebSocket connection created by
`new WebSocket(protocol + host + '/api/workflow/ws/' + executionId)`
(workflow.js:618): `id` distinguishes distinct connection objects
(fresh for each `new WebSocket`), and `executionId` is the only datum
in the request URL — there is no stream cursor or resume token, so the
server answers with a fresh `init` snapshot. -/
structure WsConn where
  id : Nat
  executionId : String
  deriving DecidableEq, Repr

/-- The WebSocket-related slice of `workflowApp` state. -/
structure WsState where
  ws : Option WsConn
  wsReconnectAttempts : Nat
  wsReconnectTimeout : Option (Nat × String)
  selectedExecution : Option String
  banner : BannerState
  nextConnId : Nat
  deriving DecidableEq, Repr

/-- Function `_connectWebSocket` (workflow.js:616-646), the connection
step: replaces `this.ws` by a brand-new `WebSocket` for
`executionId`. -/
def connectWs (executionId : String) (st : WsState) : WsState :=
  { st with ws := some ⟨st.nextConnId, executionId⟩, nextConnId := st.nextConnId + 1 }

/-- The `ws.onclose` handler installed by `_connectWebSocket`
(workflow.js:633-645): hides the approval banner, then — only when the
closed connection belongs to the still-selected execution and fewer
than `maxWsReconnectAttempts` reconnects have been made — increments
the attempt counter and schedules `_connectWebSocket(executionId)`
after `min(1000 * 2 ** attempts, 30000)` ms. -/
def handleWsClose (executionId : String) (st : WsState) : WsState :=
  let st := { st with banner := hideApprovalBanner st.banner }
  if st.selectedExecution = some executionId ∧
      st.wsReconnectAttempts < maxWsReconnectAttempts then
    let attempts := st.wsReconnectAttempts + 1
    { st with wsReconnectAttempts := attempts
              wsReconnectTimeout := some (min (1000 * 2 ^ attempts) 30000, executionId) }
  else st

/-- The body of the `setTimeout` scheduled by `onclose`
(workflow.js:641-643): when a reconnect timeout is pending, firing it
calls `_connectWebSocket(executionId)`. -/
def fireReconnectTimeout (st : WsState) : WsState :=
  match st.wsReconnectTimeout with
  | none => st
  | some (_, executionId) => connectWs executionId st

/-! ## Todos and `renderTodos` -/

/-- A todo item as consumed by `renderTodos` (workflow.js:508-520). -/
structure Todo where
  content : String
  priority : String
  status : String
  deriving DecidableEq, Repr

/-- The `todo_progress` payload; every field is optional (the JS reads
each with a `||` default). -/
structure TodoProgress where
  percent : Option ℚ
  completed : Option Nat
  total : Option Nat
  in_progress : Option Nat
  deriving DecidableEq, Repr

/-- JS `x || d` on an optional number: both absence and `0` fall back
to the default. -/
def jsOrNat (v : Option Nat) (d : Nat) : Nat :=
  match v with
  | some 0 => d
  | none => d
  | some n => n

/-- JS `x || d` on an optional rational. -/
def jsOrQ (v : Option ℚ) (d : ℚ) : ℚ :=
  match v with
  | some x => if x = 0 then d else x
  | none => d

/-- One rendered `todo-item` row: status icon, HTML-escaped content,
priority label. -/
structure TodoItemView where
  statusIcon : String
  content : String
  priority : String
  deriving DecidableEq, Repr

/-- Function `getTodoStatusIcon` (workflow.js:540-548). -/
def getTodoStatusIcon (status : String) : String :=
  if status = "pending" then "○"
  else if status = "in_progress" then "◐"
  else if status = "completed" then "●"
  else if status = "cancelled" then "◌"
  else "○"

/-- The rendered `#todo-panel`: hidden (`display: none`), or shown
with its item rows, counts, in-progress badge and progress-bar
width. -/
inductive TodoPanelView where
  | hidden
  | shown (items : List TodoItemView) (completed total inProgress : Nat) (percent : ℚ)
  deriving DecidableEq, Repr

/-- Function `renderTodos` (workflow.js:482-538) reading the given
`todos` / `todoProgress` fields: an empty (or missing) list hides the
panel and returns; otherwise the panel is shown and fully
re-rendered. -/
def renderTodos (todos : List Todo) (todoProgress : Option TodoProgress) :
    TodoPanelView :=
  if todos = [] then .hidden
  else
    let percent := jsOrQ (todoProgress.bind (·.percent)) 0
    let completed := jsOrNat (todoProgress.bind (·.completed)) 0
    let total := jsOrNat (todoProgress.bind (·.total)) todos.length
    let inProgress := jsOrNat (todoProgress.bind (·.in_progress)) 0
    .shown
      (todos.map fun todo =>
        ⟨getTodoStatusIcon todo.status, escapeHtml todo.content, todo.priority⟩)
      completed total inProgress percent

/-! ## `renderPipeline` and templates -/

/-- A phase-graph template phase as consumed by the
`templatePhases.map` in `renderPipeline` (workflow.js:352-361). -/
structure TemplatePhase where
  id : String
  name : String
  role : String
  order : Option Int
  deriving DecidableEq, Repr

/-- JS `p.order || i` (workflow.js:360): absent *or zero* `order`
falls back to the index. -/
def jsOrInt (v : Option Int) (d : Int) : Int :=
  match v with
  | some o => if o = 0 then d else o
  | none => d

/-- The pending placeholder phases built from the template when no
phase has executed yet (workflow.js:352-361), restricted to the fields
`groupPhases` reads: `phase_id := p.id`, no `parallel_with`,
`order := p.order || i`. -/
def pendingPhases (templatePhases : List TemplatePhase) : List PhaseExec :=
  (templatePhases.enum).map fun pi =>
    { phase_id := pi.2.id
      parallel_with := none
      order := some (jsOrInt pi.2.order (Int.ofNat pi.1)) }

/-- The `#pipeline-view` contents: a placeholder div or a pipeline of
blocks. -/
inductive PipelineView where
  | placeholder
  | pipeline (blocks : List Block)
  deriving DecidableEq, Repr

/-- JS `truncate` (workflow.js:1022-1025). -/
def truncate (str : String) (len : Nat) : String :=
  if str.length > len then (str.take len).append "..." else str

/-- The pipeline pane as (re)written by `renderPipeline`: title,
status pill, action buttons, and the view body. -/
structure PipelinePanel where
  title : String
  status : String
  actions : List Action
  view : PipelineView
  deriving DecidableEq, Repr

/-- Function `renderPipeline` (workflow.js:335-379).  The
`task_description || 'Workflow'` fallback triggers on the empty
string (absent descriptions are modelled as `""`). -/
def renderPipeline (execution : Execution) (templatePhases : List TemplatePhase) :
    PipelinePanel :=
  let title := truncate
    (if execution.task_description = "" then "Workflow" else execution.task_description) 50
  let actions := renderActions execution
  let hasExecutedPhases := execution.phase_executions ≠ []
  let view :=
    if ¬ hasExecutedPhases ∧ templatePhases ≠ [] then
      PipelineView.pipeline (groupPhases (pendingPhases templatePhases))
    else if ¬ hasExecutedPhases then
      PipelineView.placeholder
    else
      PipelineView.pipeline (groupPhases execution.phase_executions)
  { title := title, status := execution.status, actions := actions, view := view }

/-! ## Client state and the WebSocket message handlers -/

/-- The slice of `workflowApp` state read or written by the handlers
under scrutiny (`handleWebSocketMessage` for `init` and `todo_update`,
`respondToApproval`). -/
structure ClientState where
  selectedExecution : Option String
  wsOpen : Bool
  pipeline : Option PipelinePanel
  banner : BannerState
  todos : List Todo
  todoProgress : Option TodoProgress
  todoPanel : TodoPanelView
  executions : List Execution
  deriving DecidableEq, Repr

/-- The `pending_approval` payload of an `init` event;
`timeout_seconds` may be absent, in which case the
`showApprovalBanner` default parameter `300` applies. -/
structure PendingApprovalInfo where
  message : String
  timeout_seconds : Option ℚ
  deriving DecidableEq, Repr

/-- An `init` event as read by `handleWebSocketMessage`
(workflow.js:661-671). -/
structure InitEvent where
  execution : Execution
  template_phases : List TemplatePhase
  pending_approval : Option PendingApprovalInfo
  todos : Option (List Todo)
  todo_progress : Option TodoProgress
  deriving DecidableEq, Repr

/-- The `data.type === 'init'` branch of `handleWebSocketMessage`
(workflow.js:661-671) at wall-clock time `now`: re-render the pipeline
from the snapshot, show the approval banner when the event carries a
pending approval (JS truthiness: only presence is checked), and
replace todos/progress when the event carries a `todos` array (an
empty array is truthy and does replace). -/
def handleInit (now : ℚ) (ev : InitEvent) (st : ClientState) : ClientState :=
  let st := { st with
    pipeline := some (renderPipeline ev.execution ev.template_phases) }
  let st :=
    match ev.pending_approval with
    | some pa =>
        { st with banner :=
            showApprovalBanner pa.message (pa.timeout_seconds.getD 300) now st.banner }
    | none => st
  match ev.todos with
  | some ts =>
      { st with todos := ts
                todoProgress := ev.todo_progress
                todoPanel := renderTodos ts ev.todo_progress }
  | none => st

/-- A `todo_update` event as read by `handleWebSocketMessage`
(workflow.js:683-687). -/
structure TodoUpdateEvent where
  todos : Option (List Todo)
  progress : Option TodoProgress
  deriving DecidableEq, Repr

/-- The `data.type === 'todo_update'` branch of
`handleWebSocketMessage` (workflow.js:683-687):
`this.todos = data.todos || []`, `this.todoProgress = data.progress || null`,
then `renderTodos()`. -/
def handleTodoUpdate (ev : TodoUpdateEvent) (st : ClientState) : ClientState :=
  let todos := ev.todos.getD []
  let todoProgress := ev.progress
  { st with todos := todos
            todoProgress := todoProgress
            todoPanel := renderTodos todos todoProgress }

/-! ## `respondToApproval` -/

/-- A message sent over the workflow WebSocket by the client:
`respondToApproval` is the only `ws.send` site on the
`/api/workflow/ws/...` channel in workflow.js (the `browserApp` object
later in the file talks to the separate `/ws` endpoint), and it sends
`JSON.stringify({ type: 'approve', approved })`. -/
structure SentMessage where
  type : String
  approved : Bool
  deriving DecidableEq, Repr

/-- An HTTP POST issued by the fallback path: execution id and
endpoint suffix (`approve` or `reject`). -/
structure PostRequest where
  executionId : String
  endpoint : String
  deriving DecidableEq, Repr

/-- The observable effects of one `respondToApproval` call. -/
structure RespondEffects where
  wsSent : List SentMessage
  posts : List PostRequest
  alerted : Bool
  deriving DecidableEq, Repr

/-- Function `respondToApproval` (workflow.js:779-801).  `fetchOk`
resolves the `try/catch` around the fallback `fetch`: on failure the
JS alerts and returns *before* `hideApprovalBanner()`. -/
def respondToApproval (approved : Bool) (fetchOk : Bool) (st : ClientState) :
    ClientState × RespondEffects :=
  match st.selectedExecution with
  | none => (st, ⟨[], [], false⟩)
  | some executionId =>
      if st.wsOpen then
        ({ st with banner := hideApprovalBanner st.banner },
          ⟨[⟨"approve", approved⟩], [], false⟩)
      else
        let endpoint := if approved then "approve" else "reject"
        if fetchOk then
          ({ st with banner := hideApprovalBanner st.banner },
            ⟨[], [⟨executionId, endpoint⟩], false⟩)
        else
          (st, ⟨[], [⟨executionId, endpoint⟩], true⟩)

/-! ## Theorems -/

/-- C4: with a configured positive limit the fill width is
`min(total_cost / limit * 100, 100)`, `danger` is present exactly when
that percentage exceeds 80, `warning` exactly when it exceeds 50 but
not 80, and the text shows used over limit; with limit `0` or absent
the width is `0%` and the text shows only the used amount. -/
theorem c4_renderBudget_formula (budget : Budget) :
    (0 < budget.limit.getD 0 →
      (renderBudget budget).widthPercent =
        min (budget.total_cost.getD 0 / budget.limit.getD 0 * 100) 100 ∧
      ((renderBudget budget).danger = true ↔
        80 < min (budget.total_cost.getD 0 / budget.limit.getD 0 * 100) 100) ∧
      ((renderBudget budget).warning = true ↔
        (50 < min (budget.total_cost.getD 0 / budget.limit.getD 0 * 100) 100 ∧
          ¬ 80 < min (budget.total_cost.getD 0 / budget.limit.getD 0 * 100) 100)) ∧
      (renderBudget budget).text =
        .usedOverLimit (budget.total_cost.getD 0) (budget.limit.getD 0)) ∧
    (budget.limit.getD 0 = 0 →
      (renderBudget budget).widthPercent = 0 ∧
      (renderBudget budget).text = .usedOnly (budget.total_cost.getD 0)) := by
  unfold renderBudget
  dsimp only
  constructor
  · intro hpos
    split_ifs with h
    · refine ⟨rfl, by simp only [decide_eq_true_eq], ?_, rfl⟩
      simp only [Bool.and_eq_true, Bool.not_eq_true', decide_eq_true_eq,
        decide_eq_false_iff_not]
      tauto
    · exact absurd hpos h
  · intro hzero
    split_ifs with h
    · rw [hzero] at h
      exact absurd h (lt_irrefl 0)
    · exact ⟨rfl, rfl⟩

/-- Witness for C4 at a concrete snapshot (cost 60 of limit 100: width
60%, warning on, danger off) and one with no limit. -/
theorem c4_renderBudget_formula_witness :
    ((0:ℚ) < (100:ℚ) ∧
      (renderBudget ⟨some 60, some 100⟩).widthPercent = min ((60:ℚ) / 100 * 100) 100 ∧
      ((renderBudget ⟨some 60, some 100⟩).danger = true ↔
        80 < min ((60:ℚ) / 100 * 100) 100) ∧
      ((renderBudget ⟨some 60, some 100⟩).warning = true ↔
        (50 < min ((60:ℚ) / 100 * 100) 100 ∧ ¬ 80 < min ((60:ℚ) / 100 * 100) 100)) ∧
      (renderBudget ⟨some 60, some 100⟩).text = .usedOverLimit 60 100) ∧
    ((renderBudget ⟨some 7, none⟩).widthPercent = 0 ∧
      (renderBudget ⟨some 7, none⟩).text = .usedOnly 7) :=
  ⟨⟨by norm_num,
    (c4_renderBudget_formula ⟨some 60, some 100⟩).1 (by norm_num)⟩,
    (c4_renderBudget_formula ⟨some 7, none⟩).2 rfl⟩

lemma escapeHtmlAux_append (l₁ l₂ : List Char) :
    escapeHtmlAux (l₁ ++ l₂) = escapeHtmlAux l₁ ++ escapeHtmlAux l₂ := by
  induction l₁ with
  | nil => simp [escapeHtmlAux]
  | cons c cs ih =>
    simp [escapeHtmlAux, ih, String.append_assoc]

lemma no_angle_of_not_mem {l : List Char} (h₁ : '<' ∉ l) (h₂ : '>' ∉ l) :
    ∀ ch ∈ l, ch ≠ '<' ∧ ch ≠ '>' :=
  fun _ hch => ⟨fun e => h₁ (e ▸ hch), fun e => h₂ (e ▸ hch)⟩

lemma escapeChar_no_angle (c : Char) :
    ∀ ch ∈ (escapeChar c).data, ch ≠ '<' ∧ ch ≠ '>' := by
  intro ch hch
  unfold escapeChar at hch
  split_ifs at hch with h1 h2 h3 h4
  · exact no_angle_of_not_mem (by decide) (by decide) ch hch
  · exact no_angle_of_not_mem (by decide) (by decide) ch hch
  · exact no_angle_of_not_mem (by decide) (by decide) ch hch
  · exact no_angle_of_not_mem (by decide) (by decide) ch hch
  · have hc : ch ∈ [c] := hch
    rcases List.mem_singleton.mp hc with rfl
    exact ⟨h2, h3⟩

lemma escapeHtmlAux_no_angle (l : List Char) :
    ∀ ch ∈ (escapeHtmlAux l).data, ch ≠ '<' ∧ ch ≠ '>' := by
  induction l with
  | nil => intro ch hch; simp [escapeHtmlAux] at hch
  | cons c cs ih =>
    intro ch hch
    simp only [escapeHtmlAux, String.data_append, List.mem_append] at hch
    rcases hch with h | h
    · exact escapeChar_no_angle c ch h
    · exact ih ch h

/-- C10: `escapeHtml` maps each character of its input
independently (it distributes over concatenation and agrees with
`escapeChar` on single characters), sends `&`, `<`, `>` to their HTML
entities, and its output contains no raw `<` or `>` character — so
interpolating the result into markup cannot introduce new HTML
elements. -/
theorem c10_escapeHtml_escapes (s t : String) (c : Char) :
    escapeHtml (s ++ t) = escapeHtml s ++ escapeHtml t ∧
    escapeHtml (String.singleton c) = escapeChar c ∧
    escapeChar '&' = "&amp;" ∧ escapeChar '<' = "&lt;" ∧ escapeChar '>' = "&gt;" ∧
    (∀ ch ∈ (escapeHtml s).data, ch ≠ '<' ∧ ch ≠ '>') := by
  refine ⟨?_, ?_, rfl, rfl, rfl, escapeHtmlAux_no_angle s.data⟩
  · unfold escapeHtml
    rw [String.data_append, escapeHtmlAux_append]
  · show escapeHtmlAux [c] = escapeChar c
    simp [escapeHtmlAux]

/-- Witness for C10 at concrete inputs. -/
theorem c10_escapeHtml_escapes_witness :
    escapeHtml ("a<b" ++ "&c>d") = escapeHtml "a<b" ++ escapeHtml "&c>d" ∧
    escapeHtml (String.singleton '<') = escapeChar '<' ∧
    escapeChar '&' = "&amp;" ∧ escapeChar '<' = "&lt;" ∧ escapeChar '>' = "&gt;" ∧
    (∀ ch ∈ (escapeHtml "a<b").data, ch ≠ '<' ∧ ch ≠ '>') :=
  c10_escapeHtml_escapes "a<b" "&c>d" '<'


lemma mem_renderActions_iff (execution : Execution) (a : Action) :
    a ∈ renderActions execution ↔
      (a = Action.run execution.id ∧ execution.status = "pending") ∨
      (a = Action.cancel execution.id ∧ execution.status = "running") ∨
      ((a = Action.resume execution.id ∨ a = Action.cancel execution.id) ∧
        execution.status = "paused") ∨
      (a = Action.cancel execution.id ∧ execution.status = "awaiting_approval") ∨
      (a = Action.viewArtifacts execution.id ∧
        execution.status ∈ ["completed", "failed", "cancelled"]) := by
  unfold renderActions
  split_ifs with h1 h2 h3 h4 h5 <;> simp_all

/-- C2 (amended): the Cancel control is rendered exactly for the
statuses `running`, `paused` and `awaiting_approval`; a `pending`
execution gets no Cancel control, and neither does any terminal
status. -/
theorem c2_cancel_for_active_statuses (execution : Execution) :
    Action.cancel execution.id ∈ renderActions execution ↔
      execution.status ∈ ["running", "paused", "awaiting_approval"] := by
  rw [mem_renderActions_iff]
  simp

/-- C2 counterexample: `pending` is a non-terminal status, yet
`renderActions` renders no Cancel control for it — only Run. -/
theorem c2_counterexample_pending_has_no_cancel :
    renderActions ⟨"e1", "pending", "task", []⟩ = [Action.run "e1"] ∧
    Action.cancel "e1" ∉ renderActions ⟨"e1", "pending", "task", []⟩ := by
  constructor
  · rfl
  · decide

/-- C9: the Run control is rendered iff the execution status is
`pending`, and the Resume control is rendered iff it is `paused`. -/
theorem c9_run_iff_pending_resume_iff_paused (execution : Execution) :
    (Action.run execution.id ∈ renderActions execution ↔
      execution.status = "pending") ∧
    (Action.resume execution.id ∈ renderActions execution ↔
      execution.status = "paused") := by
  constructor <;> rw [mem_renderActions_iff] <;> simp

/-- C8: a `todo_update` event replaces the todo list (absent list
becomes `[]`) and the progress summary (absent becomes none)
wholesale, hides the re-rendered panel exactly when the resulting list
is empty, and leaves every other client-state field untouched. -/
theorem c8_todo_update_replaces_wholesale (ev : TodoUpdateEvent) (st : ClientState) :
    (handleTodoUpdate ev st).todos = ev.todos.getD [] ∧
    (handleTodoUpdate ev st).todoProgress = ev.progress ∧
    (handleTodoUpdate ev st).todoPanel =
      renderTodos (ev.todos.getD []) ev.progress ∧
    ((handleTodoUpdate ev st).todoPanel = .hidden ↔ ev.todos.getD [] = []) ∧
    (handleTodoUpdate ev st).selectedExecution = st.selectedExecution ∧
    (handleTodoUpdate ev st).wsOpen = st.wsOpen ∧
    (handleTodoUpdate ev st).pipeline = st.pipeline ∧
    (handleTodoUpdate ev st).banner = st.banner ∧
    (handleTodoUpdate ev st).executions = st.executions := by
  refine ⟨rfl, rfl, rfl, ?_, rfl, rfl, rfl, rfl, rfl⟩
  show renderTodos (ev.todos.getD []) ev.progress = .hidden ↔ ev.todos.getD [] = []
  unfold renderTodos
  split_ifs with h
  · simp [h]
  · simp [h]

/-- C7 counterexample: with the WebSocket not open and the fallback
`fetch` failing, `respondToApproval` returns before
`hideApprovalBanner()`, so the banner stays visible even though an
execution is selected and the POST was attempted. -/
theorem c7_counterexample_fetch_failure_keeps_banner :
    ((respondToApproval true false
        { selectedExecution := some "e1"
          wsOpen := false
          pipeline := none
          banner := ⟨some ⟨"msg", 300, 0⟩, true, true, some (.showing 300), false⟩
          todos := []
          todoProgress := none
          todoPanel := .hidden
          executions := [] }).1).banner.bannerVisible = true ∧
    ((respondToApproval true false
        { selectedExecution := some "e1"
          wsOpen := false
          pipeline := none
          banner := ⟨some ⟨"msg", 300, 0⟩, true, true, some (.showing 300), false⟩
          todos := []
          todoProgress := none
          todoPanel := .hidden
          executions := [] }).2).posts = [⟨"e1", "approve"⟩] :=
  ⟨rfl, rfl⟩

/-- C7 (amended): with no selected execution nothing is sent; with the
socket open exactly one message — the approval response, the only
message type ever sent — goes out and the banner is hidden; with the
socket closed the response is POSTed to the endpoint chosen by the
boolean and the banner is hidden *when the request succeeds*, while a
failed request leaves the state (banner included) unchanged and raises
an alert. -/
theorem c7_respond_to_approval (approved fetchOk : Bool) (st : ClientState) :
    (st.selectedExecution = none →
      respondToApproval approved fetchOk st = (st, ⟨[], [], false⟩)) ∧
    (∀ eid, st.selectedExecution = some eid →
      (st.wsOpen = true →
        respondToApproval approved fetchOk st =
          ({ st with banner := hideApprovalBanner st.banner },
            ⟨[⟨"approve", approved⟩], [], false⟩)) ∧
      (st.wsOpen = false →
        (respondToApproval approved fetchOk st).2.wsSent = [] ∧
        (respondToApproval approved fetchOk st).2.posts =
          [⟨eid, if approved then "approve" else "reject"⟩] ∧
        (fetchOk = true →
          (respondToApproval approved fetchOk st).1 =
            { st with banner := hideApprovalBanner st.banner }) ∧
        (fetchOk = false →
          (respondToApproval approved fetchOk st).1 = st ∧
          (respondToApproval approved fetchOk st).2.alerted = true))) ∧
    (∀ m ∈ (respondToApproval approved fetchOk st).2.wsSent, m.type = "approve") := by
  obtain ⟨sel, wso, pl, bn, td, tp, pnl, ex⟩ := st
  cases sel <;> cases wso <;> cases fetchOk <;>
    simp [respondToApproval, hideApprovalBanner]

/-- Witness for C7: socket open, execution selected — the theorem
yields the single approval message and the hidden banner. -/
theorem c7_respond_to_approval_witness :
    respondToApproval true true
        { selectedExecution := some "e1"
          wsOpen := true
          pipeline := none
          banner := ⟨some ⟨"msg", 300, 0⟩, true, true, some (.showing 300), false⟩
          todos := []
          todoProgress := none
          todoPanel := .hidden
          executions := [] } =
      ({ selectedExecution := some "e1"
         wsOpen := true
         pipeline := none
         banner := ⟨none, false, false, some (.showing 300), false⟩
         todos := []
         todoProgress := none
         todoPanel := .hidden
         executions := [] },
        ⟨[⟨"approve", true⟩], [], false⟩) :=
  ((c7_respond_to_approval true true _).2.1 "e1" rfl).1 rfl

/-- C6 counterexample: an `init` event carrying no pending approval
does not hide an approval banner already on screen (stale from a
previously watched execution), so after handling the event the banner
is shown although the event carried no approval request. -/
theorem c6_counterexample_stale_banner :
    (InitEvent.mk ⟨"B", "running", "task", []⟩ [] none none none).pending_approval
      = none ∧
    (handleInit 1000 (InitEvent.mk ⟨"B", "running", "task", []⟩ [] none none none)
        { selectedExecution := some "B"
          wsOpen := true
          pipeline := none
          banner := ⟨some ⟨"old request", 300, 0⟩, true, true, some (.showing 300), false⟩
          todos := []
          todoProgress := none
          todoPanel := .hidden
          executions := [] }).banner.bannerVisible = true :=
  ⟨rfl, rfl⟩

/-- C6 (amended): handling an `init` event rebuilds the pipeline pane
from the event snapshot; the approval banner is shown — with the
event message and timeout — when the event carries a pending
approval, and is left untouched (not hidden) when it does not; the
todo list and progress are replaced exactly when the event carries a
`todos` array. -/
theorem c6_init_rebuilds_view (now : ℚ) (ev : InitEvent) (st : ClientState) :
    (handleInit now ev st).pipeline =
      some (renderPipeline ev.execution ev.template_phases) ∧
    (∀ pa, ev.pending_approval = some pa →
      (handleInit now ev st).banner =
        showApprovalBanner pa.message (pa.timeout_seconds.getD 300) now st.banner ∧
      (handleInit now ev st).banner.bannerVisible = true) ∧
    (ev.pending_approval = none → (handleInit now ev st).banner = st.banner) ∧
    (∀ ts, ev.todos = some ts →
      (handleInit now ev st).todos = ts ∧
      (handleInit now ev st).todoProgress = ev.todo_progress ∧
      (handleInit now ev st).todoPanel = renderTodos ts ev.todo_progress) ∧
    (ev.todos = none →
      (handleInit now ev st).todos = st.todos ∧
      (handleInit now ev st).todoProgress = st.todoProgress ∧
      (handleInit now ev st).todoPanel = st.todoPanel) := by
  obtain ⟨exec, tph, pa, tds, tpr⟩ := ev
  cases pa <;> cases tds <;>
    simp [handleInit, showApprovalBanner]

/-- Witness for C6: an `init` event carrying both a pending approval
and a todo list, applied to the pristine client state. -/
theorem c6_init_rebuilds_view_witness :
    (handleInit 0
        (InitEvent.mk ⟨"B", "running", "task", []⟩ []
          (some ⟨"Deploy?", some 60⟩) (some [⟨"write tests", "high", "pending"⟩]) none)
        { selectedExecution := some "B"
          wsOpen := true
          pipeline := none
          banner := initialBannerState
          todos := []
          todoProgress := none
          todoPanel := .hidden
          executions := [] }).banner.bannerVisible = true ∧
    (handleInit 0
        (InitEvent.mk ⟨"B", "running", "task", []⟩ []
          (some ⟨"Deploy?", some 60⟩) (some [⟨"write tests", "high", "pending"⟩]) none)
        { selectedExecution := some "B"
          wsOpen := true
          pipeline := none
          banner := initialBannerState
          todos := []
          todoProgress := none
          todoPanel := .hidden
          executions := [] }).todos = [⟨"write tests", "high", "pending"⟩] :=
  ⟨((c6_init_rebuilds_view 0 _ _).2.1 ⟨"Deploy?", some 60⟩ rfl).2,
    ((c6_init_rebuilds_view 0 _ _).2.2.2.1 [⟨"write tests", "high", "pending"⟩] rfl).1⟩

/-- C5: when the per-execution socket closes, the approval banner is
hidden; if the execution is still selected and fewer than 5 reconnect
attempts were made, the attempt counter increments and a reconnect
fires after `min(1000 * 2 ^ attempt, 30000)` ms, opening a brand-new
connection whose request carries only the execution id (hence a fresh
snapshot, no stream resumption); otherwise no reconnect is
scheduled. -/
theorem c5_ws_close_reconnects (executionId : String) (st : WsState) :
    (st.selectedExecution = some executionId →
      st.wsReconnectAttempts < maxWsReconnectAttempts →
      (handleWsClose executionId st).banner.bannerVisible = false ∧
      (handleWsClose executionId st).wsReconnectAttempts =
        st.wsReconnectAttempts + 1 ∧
      (handleWsClose executionId st).wsReconnectTimeout =
        some (min (1000 * 2 ^ (st.wsReconnectAttempts + 1)) 30000, executionId) ∧
      (fireReconnectTimeout (handleWsClose executionId st)).ws =
        some ⟨st.nextConnId, executionId⟩ ∧
      (∀ c, st.ws = some c → c.id < st.nextConnId →
        (fireReconnectTimeout (handleWsClose executionId st)).ws ≠ some c)) ∧
    ((st.selectedExecution ≠ some executionId ∨
        maxWsReconnectAttempts ≤ st.wsReconnectAttempts) →
      (handleWsClose executionId st).banner.bannerVisible = false ∧
      (handleWsClose executionId st).wsReconnectTimeout = st.wsReconnectTimeout ∧
      (handleWsClose executionId st).wsReconnectAttempts =
        st.wsReconnectAttempts) := by
  constructor
  · intro hsel hlt
    unfold handleWsClose
    rw [if_pos ⟨hsel, hlt⟩]
    refine ⟨rfl, rfl, rfl, rfl, ?_⟩
    intro c _ hid heq
    obtain ⟨cid, ceid⟩ := c
    dsimp only at hid
    unfold fireReconnectTimeout connectWs at heq
    simp only [Option.some.injEq, WsConn.mk.injEq] at heq
    omega
  · intro hneg
    unfold handleWsClose
    rw [if_neg ?hc]
    case hc =>
      rintro ⟨h1, h2⟩
      dsimp only at h1 h2
      rcases hneg with h | h
      · exact h h1
      · omega
    exact ⟨rfl, rfl, rfl⟩

/-- Witness for C5: second close on a selected execution — delay
`min(1000 * 2 ^ 2, 30000) = 4000` ms, fresh connection id 7. -/
theorem c5_ws_close_reconnects_witness :
    ((handleWsClose "e1"
        { ws := some ⟨3, "e1"⟩
          wsReconnectAttempts := 1
          wsReconnectTimeout := none
          selectedExecution := some "e1"
          banner := ⟨none, false, true, none, false⟩
          nextConnId := 7 }).banner.bannerVisible = false ∧
      (handleWsClose "e1"
        { ws := some ⟨3, "e1"⟩
          wsReconnectAttempts := 1
          wsReconnectTimeout := none
          selectedExecution := some "e1"
          banner := ⟨none, false, true, none, false⟩
          nextConnId := 7 }).wsReconnectAttempts = 1 + 1 ∧
      (handleWsClose "e1"
        { ws := some ⟨3, "e1"⟩
          wsReconnectAttempts := 1
          wsReconnectTimeout := none
          selectedExecution := some "e1"
          banner := ⟨none, false, true, none, false⟩
          nextConnId := 7 }).wsReconnectTimeout =
        some (min (1000 * 2 ^ (1 + 1)) 30000, "e1") ∧
      (fireReconnectTimeout (handleWsClose "e1"
        { ws := some ⟨3, "e1"⟩
          wsReconnectAttempts := 1
          wsReconnectTimeout := none
          selectedExecution := some "e1"
          banner := ⟨none, false, true, none, false⟩
          nextConnId := 7 })).ws = some ⟨7, "e1"⟩ ∧
      (∀ c, (some (WsConn.mk 3 "e1") : Option WsConn) = some c → c.id < 7 →
        (fireReconnectTimeout (handleWsClose "e1"
          { ws := some ⟨3, "e1"⟩
            wsReconnectAttempts := 1
            wsReconnectTimeout := none
            selectedExecution := some "e1"
            banner := ⟨none, false, true, none, false⟩
            nextConnId := 7 })).ws ≠ some c)) :=
  (c5_ws_close_reconnects "e1" _).1 rfl (by decide)

lemma showApprovalBanner_pos (message : String) (T t0 : ℚ) (st0 : BannerState)
    (hT : 0 < T) :
    showApprovalBanner message T t0 st0 =
      { pendingApproval := some ⟨message, T, t0⟩
        intervalActive := true
        bannerVisible := true
        timerText := some (.showing T)
        toastTimedOut := st0.toastTimedOut } := by
  unfold showApprovalBanner updateBanner
  dsimp only
  have e1 : (t0 - t0) / 1000 = (0 : ℚ) := by rw [sub_self, zero_div]
  have e2 : max 0 (T - (t0 - t0) / 1000) = T := by
    rw [e1, sub_zero]
    exact max_eq_right hT.le
  rw [e2, if_pos hT, if_neg (not_le.mpr hT)]

lemma showApprovalBanner_nonpos (message : String) (T t0 : ℚ) (st0 : BannerState)
    (hT : T ≤ 0) :
    showApprovalBanner message T t0 st0 =
      { pendingApproval := none
        intervalActive := true
        bannerVisible := true
        timerText := some .expired
        toastTimedOut := true } := by
  unfold showApprovalBanner updateBanner hideApprovalBanner
  dsimp only
  have e1 : (t0 - t0) / 1000 = (0 : ℚ) := by rw [sub_self, zero_div]
  have e2 : max 0 (T - (t0 - t0) / 1000) = 0 := by
    rw [e1, sub_zero]
    exact max_eq_left hT
  rw [e2, if_neg (lt_irrefl 0), if_pos (le_refl (0 : ℚ))]

lemma updateBanner_armed_of_lt (message : String) (T t0 now : ℚ)
    (st : BannerState) (hp : st.pendingApproval = some ⟨message, T, t0⟩)
    (hlt : (now - t0) / 1000 < T) :
    updateBanner now st =
      { st with timerText := some (.showing (max 0 (T - (now - t0) / 1000))) } := by
  unfold updateBanner
  rw [hp]
  dsimp only
  have h1 : (0 : ℚ) < max 0 (T - (now - t0) / 1000) :=
    lt_max_of_lt_right (sub_pos.mpr hlt)
  rw [if_pos h1, if_neg (not_le.mpr h1)]

lemma updateBanner_expire (message : String) (T t0 now : ℚ)
    (st : BannerState) (hp : st.pendingApproval = some ⟨message, T, t0⟩)
    (hge : T ≤ (now - t0) / 1000) :
    updateBanner now st =
      { pendingApproval := none
        intervalActive := false
        bannerVisible := false
        timerText := some .expired
        toastTimedOut := true } := by
  unfold updateBanner hideApprovalBanner
  rw [hp]
  dsimp only
  have h0 : max 0 (T - (now - t0) / 1000) = 0 :=
    max_eq_left (sub_nonpos.mpr hge)
  rw [h0, if_neg (lt_irrefl 0), if_pos (le_refl (0 : ℚ))]

lemma runTicks_inactive (ticks : List ℚ) (st : BannerState)
    (h : st.intervalActive = false) : runTicks ticks st = st := by
  induction ticks with
  | nil => rfl
  | cons t ts ih =>
    show runTicks ts (if st.intervalActive = true then updateBanner t st else st) = st
    rw [h]
    simpa using ih

lemma runTicks_expires (message : String) (T t0 : ℚ) (ticks : List ℚ) :
    ∀ st : BannerState, st.pendingApproval = some ⟨message, T, t0⟩ →
      st.intervalActive = true →
      (∃ t ∈ ticks, T ≤ (t - t0) / 1000) →
      (runTicks ticks st).bannerVisible = false ∧
      (runTicks ticks st).intervalActive = false ∧
      (runTicks ticks st).toastTimedOut = true := by
  induction ticks with
  | nil =>
    intro st _ _ hex
    simp at hex
  | cons t ts ih =>
    intro st hp hi hex
    have hstep : runTicks (t :: ts) st = runTicks ts (updateBanner t st) := by
      show runTicks ts (if st.intervalActive = true then updateBanner t st else st) =
        runTicks ts (updateBanner t st)
      rw [hi]
      simp
    by_cases hexp : T ≤ (t - t0) / 1000
    · rw [hstep, updateBanner_expire message T t0 t st hp hexp,
        runTicks_inactive ts _ rfl]
      exact ⟨rfl, rfl, rfl⟩
    · rw [hstep, updateBanner_armed_of_lt message T t0 t st hp (not_le.mp hexp)]
      apply ih
      · exact hp
      · exact hi
      · rcases hex with ⟨x, hx, hTx⟩
        rcases List.mem_cons.mp hx with rfl | hx_mem
        · exact absurd hTx hexp
        · exact ⟨x, hx_mem, hTx⟩

/-- C3 counterexample: a banner opened with timeout `0` (a value the
server can send in `timeout_seconds`).  The synchronous first
`updateBanner()` call does expire and hide it, but `showApprovalBanner`
then re-arms the interval and sets `display: flex`, with
`pendingApproval` already `null` — every later interval callback
throws on `this.pendingApproval.startedAt` before reaching
`hideApprovalBanner`, so the banner remains displayed forever after
its timeout has expired. -/
theorem c3_counterexample_zero_timeout :
    (showApprovalBanner "Deploy to production?" 0 0 initialBannerState).bannerVisible
        = true ∧
    (showApprovalBanner "Deploy to production?" 0 0 initialBannerState).pendingApproval
        = none ∧
    runTicks [1000, 2000, 600000]
        (showApprovalBanner "Deploy to production?" 0 0 initialBannerState) =
      showApprovalBanner "Deploy to production?" 0 0 initialBannerState := by
  have h := showApprovalBanner_nonpos "Deploy to production?" 0 0 initialBannerState
    (le_refl 0)
  refine ⟨by rw [h], by rw [h], ?_⟩
  rw [h]
  show runTicks [1000, 2000, 600000]
      ⟨none, true, true, some .expired, true⟩ = ⟨none, true, true, some .expired, true⟩
  rfl

/-- C3 (amended, timeout restricted to `T > 0`): the banner opens
visible with an armed countdown; every interval callback displays
exactly `max(0, T - elapsed)` seconds (as the timer text, `Expired`
once it hits zero); and as soon as any callback runs at or past the
deadline the countdown is cleared, the timed-out toast fires, and the
banner is hidden — later callbacks cannot revive it. -/
theorem c3_banner_countdown (message : String) (T t0 : ℚ) (st0 : BannerState)
    (hT : 0 < T) :
    (showApprovalBanner message T t0 st0).bannerVisible = true ∧
    (showApprovalBanner message T t0 st0).intervalActive = true ∧
    (showApprovalBanner message T t0 st0).timerText = some (.showing T) ∧
    (∀ now, (updateBanner now (showApprovalBanner message T t0 st0)).timerText =
      some (if max 0 (T - (now - t0) / 1000) > 0
            then .showing (max 0 (T - (now - t0) / 1000))
            else .expired)) ∧
    (∀ ticks : List ℚ, (∃ t ∈ ticks, T ≤ (t - t0) / 1000) →
      (runTicks ticks (showApprovalBanner message T t0 st0)).bannerVisible = false ∧
      (runTicks ticks (showApprovalBanner message T t0 st0)).intervalActive = false ∧
      (runTicks ticks (showApprovalBanner message T t0 st0)).toastTimedOut = true) := by
  have h := showApprovalBanner_pos message T t0 st0 hT
  refine ⟨by rw [h], by rw [h], by rw [h], ?_, ?_⟩
  · intro now
    rw [h]
    show (updateBanner now _).timerText = _
    unfold updateBanner
    dsimp only
    split_ifs <;> rfl
  · intro ticks hex
    exact runTicks_expires message T t0 ticks _ (by rw [h]) (by rw [h]) hex

/-- Witness for C3: timeout 5 s opened at `t0 = 0` ms; ticks at 1 s
and 6 s — the 6 s callback is past the deadline and the banner ends
hidden, interval cleared, toast shown. -/
theorem c3_banner_countdown_witness :
    (0 : ℚ) < 5 ∧
    (∃ t ∈ [(1000 : ℚ), 6000], (5 : ℚ) ≤ (t - 0) / 1000) ∧
    ((runTicks [(1000 : ℚ), 6000]
        (showApprovalBanner "Proceed?" 5 0 initialBannerState)).bannerVisible = false ∧
      (runTicks [(1000 : ℚ), 6000]
        (showApprovalBanner "Proceed?" 5 0 initialBannerState)).intervalActive = false ∧
      (runTicks [(1000 : ℚ), 6000]
        (showApprovalBanner "Proceed?" 5 0 initialBannerState)).toastTimedOut = true) :=
  ⟨by norm_num, ⟨6000, by norm_num, by norm_num⟩,
    (c3_banner_countdown "Proceed?" 5 0 initialBannerState (by norm_num)).2.2.2.2
      [(1000 : ℚ), 6000] ⟨6000, by norm_num, by norm_num⟩⟩



lemma parallelOf_pos_iff_any (sorted : List PhaseExec) (phase : PhaseExec) :
    0 < (parallelOf sorted phase).length ↔
      sorted.any (fun p => p.parallel_with == some phase.phase_id) = true := by
  unfold parallelOf
  constructor
  · intro h
    rcases List.exists_mem_of_ne_nil _ (List.length_pos.mp h) with ⟨x, hx⟩
    rw [List.mem_filter] at hx
    exact List.any_eq_true.mpr ⟨x, hx.1, hx.2⟩
  · intro h
    rcases List.any_eq_true.mp h with ⟨x, hx, hpx⟩
    exact List.length_pos.mpr
      (List.ne_nil_of_mem (List.mem_filter.mpr ⟨hx, hpx⟩))

lemma groupPhasesAux_flatten (sorted : List PhaseExec)
    (H : ParallelAdjacent sorted) (i : Nat) :
    renderedPhases (groupPhasesAux sorted i) = sorted.drop i := by
  have key : ∀ n i, sorted.length - i ≤ n →
      renderedPhases (groupPhasesAux sorted i) = sorted.drop i := by
    intro n
    induction n with
    | zero =>
      intro i hle
      rw [groupPhasesAux, dif_neg (by omega : ¬ i < sorted.length),
        List.drop_eq_nil_of_le (by omega)]
      rfl
    | succ n ih =>
      intro i hle
      by_cases h : i < sorted.length
      · rw [groupPhasesAux, dif_pos h]
        dsimp only
        set P := parallelOf sorted (sorted.get ⟨i, h⟩) with hPdef
        by_cases hlen : 0 < P.length
        · rw [if_pos hlen]
          have hadj := H i h
          rw [← hPdef] at hadj
          have hrec := ih (i + P.length + 1) (by omega)
          unfold renderedPhases at hrec ⊢
          rw [List.flatMap_cons, hrec]
          show (sorted.get ⟨i, h⟩ :: P) ++ sorted.drop (i + P.length + 1) =
            sorted.drop i
          have hcons : sorted.drop i = sorted.get ⟨i, h⟩ :: sorted.drop (i + 1) := by
            rw [List.get_eq_getElem]
            exact (List.getElem_cons_drop sorted i h).symm
          rw [List.cons_append,
            (by omega : i + P.length + 1 = (i + 1) + P.length),
            ← List.drop_drop, hcons]
          have htail : P ++ (sorted.drop (i + 1)).drop P.length =
              sorted.drop (i + 1) := by
            conv_rhs => rw [← List.take_append_drop P.length (sorted.drop (i + 1))]
            exact congrArg (fun l => l ++ (sorted.drop (i + 1)).drop P.length) hadj
          rw [htail]
        · rw [if_neg hlen]
          have hany : sorted.any
              (fun p => p.parallel_with == some (sorted.get ⟨i, h⟩).phase_id)
                = false := by
            rw [← Bool.not_eq_true, ← parallelOf_pos_iff_any]
            exact hlen
          rw [hany]
          show renderedPhases
              (Block.single (sorted.get ⟨i, h⟩) :: groupPhasesAux sorted (i + 1)) =
            sorted.drop i
          have hrec := ih (i + 1) (by omega)
          unfold renderedPhases at hrec ⊢
          rw [List.flatMap_cons, hrec]
          show [sorted.get ⟨i, h⟩] ++ sorted.drop (i + 1) = sorted.drop i
          rw [List.singleton_append, List.get_eq_getElem]
          exact List.getElem_cons_drop sorted i h
      · rw [groupPhasesAux, dif_neg h, List.drop_eq_nil_of_le (by omega)]
        rfl
  exact key sorted.length i (Nat.sub_le _ _)

lemma mem_groupPhasesAux_group (sorted : List PhaseExec) (i : Nat)
    (leader : PhaseExec) (members : List PhaseExec)
    (hmem : Block.group leader members ∈ groupPhasesAux sorted i) :
    members = parallelOf sorted leader ∧ members ≠ [] := by
  have key : ∀ n i, sorted.length - i ≤ n →
      Block.group leader members ∈ groupPhasesAux sorted i →
      members = parallelOf sorted leader ∧ members ≠ [] := by
    intro n
    induction n with
    | zero =>
      intro i hle hmem
      rw [groupPhasesAux, dif_neg (by omega : ¬ i < sorted.length)] at hmem
      simp at hmem
    | succ n ih =>
      intro i hle hmem
      by_cases h : i < sorted.length
      · rw [groupPhasesAux, dif_pos h] at hmem
        dsimp only at hmem
        by_cases hlen : 0 < (parallelOf sorted (sorted.get ⟨i, h⟩)).length
        · rw [if_pos hlen] at hmem
          rcases List.mem_cons.mp hmem with heq | htail
          · injection heq with hl hm
            subst hl
            subst hm
            exact ⟨rfl, List.length_pos.mp hlen⟩
          · exact ih _ (by omega) htail
        · rw [if_neg hlen] at hmem
          split at hmem
          · rcases List.mem_cons.mp hmem with heq | htail
            · exact absurd heq (by simp)
            · exact ih _ (by omega) htail
          · exact ih _ (by omega) hmem
      · rw [groupPhasesAux, dif_neg h] at hmem
        simp at hmem
  exact key sorted.length i (Nat.sub_le _ _) hmem

lemma group_mem_of_referenced (sorted : List PhaseExec)
    (H : ParallelAdjacent sorted) (NC : NoChainedParallel sorted) (i : Nat) :
    ∀ p ∈ sorted.drop i, parallelOf sorted p ≠ [] →
      Block.group p (parallelOf sorted p) ∈ groupPhasesAux sorted i := by
  have key : ∀ n i, sorted.length - i ≤ n → ∀ p ∈ sorted.drop i,
      parallelOf sorted p ≠ [] →
      Block.group p (parallelOf sorted p) ∈ groupPhasesAux sorted i := by
    intro n
    induction n with
    | zero =>
      intro i hle p hp _
      rw [List.drop_eq_nil_of_le (by omega)] at hp
      simp at hp
    | succ n ih =>
      intro i hle p hp href
      by_cases h : i < sorted.length
      · have hcons : sorted.drop i = sorted.get ⟨i, h⟩ :: sorted.drop (i + 1) := by
          rw [List.get_eq_getElem]
          exact (List.getElem_cons_drop sorted i h).symm
        rw [hcons] at hp
        rw [groupPhasesAux, dif_pos h]
        dsimp only
        set P := parallelOf sorted (sorted.get ⟨i, h⟩) with hPdef
        by_cases hlen : 0 < P.length
        · rw [if_pos hlen]
          rcases List.mem_cons.mp hp with rfl | htail
          · rw [← hPdef]
            exact List.mem_cons_self _ _
          · have hadj := H i h
            rw [← hPdef] at hadj
            have hsplit : sorted.drop (i + 1) =
                P ++ (sorted.drop (i + 1)).drop P.length := by
              conv_lhs =>
                rw [← List.take_append_drop P.length (sorted.drop (i + 1))]
              rw [← hadj]
            rw [hsplit] at htail
            rcases List.mem_append.mp htail with hmem | hmem
            · rw [hPdef] at hmem
              unfold parallelOf at hmem
              have hflt := List.mem_filter.mp hmem
              have hpw : p.parallel_with = some (sorted.get ⟨i, h⟩).phase_id :=
                beq_iff_eq.mp hflt.2
              have hnone := NC p hflt.1 href
              rw [hnone] at hpw
              exact absurd hpw (by simp)
            · rw [List.drop_drop] at hmem
              rw [(by omega : (i + 1) + P.length = i + P.length + 1)] at hmem
              exact List.mem_cons_of_mem _
                (ih (i + P.length + 1) (by omega) p hmem href)
        · rw [if_neg hlen]
          have hany : sorted.any
              (fun q => q.parallel_with == some (sorted.get ⟨i, h⟩).phase_id)
                = false := by
            rw [← Bool.not_eq_true, ← parallelOf_pos_iff_any, ← hPdef]
            exact hlen
          rw [hany]
          show Block.group p (parallelOf sorted p) ∈
            Block.single (sorted.get ⟨i, h⟩) :: groupPhasesAux sorted (i + 1)
          rcases List.mem_cons.mp hp with rfl | htail
          · have hP0 : P = [] := List.length_eq_zero.mp (by omega)
            rw [← hPdef] at href
            exact absurd hP0 href
          · exact List.mem_cons_of_mem _ (ih (i + 1) (by omega) p htail href)
      · rw [List.drop_eq_nil_of_le (by omega)] at hp
        simp at hp
  exact key sorted.length i (Nat.sub_le _ _)

/-- C1 (amended with the preconditions `ParallelAdjacent` and
`NoChainedParallel`, forced by the counterexample below and by the
chain configuration described at `NoChainedParallel`): provided the
phases referencing a phase via `parallel_with` sit contiguously right
after it in the order-sorted list and no phase both references and is
referenced, the rendered pipeline is exactly the order-sorted list —
every phase appears exactly once (a permutation of the input), in
ascending order index; every referenced phase is rendered in a
parallel group together with precisely the phases whose
`parallel_with` equals its `phase_id`; and conversely every rendered
parallel group consists of a leader plus exactly its referencers. -/
theorem c1_groupPhases_renders_once_sorted (phases : List PhaseExec)
    (H : ParallelAdjacent (sortPhases phases))
    (NC : NoChainedParallel (sortPhases phases)) :
    renderedPhases (groupPhases phases) = sortPhases phases ∧
    (renderedPhases (groupPhases phases)).Perm phases ∧
    List.Sorted (fun a b => a.orderVal ≤ b.orderVal)
      (renderedPhases (groupPhases phases)) ∧
    (∀ p ∈ sortPhases phases, parallelOf (sortPhases phases) p ≠ [] →
      Block.group p (parallelOf (sortPhases phases) p) ∈ groupPhases phases) ∧
    (∀ leader members, Block.group leader members ∈ groupPhases phases →
      members = parallelOf (sortPhases phases) leader ∧ members ≠ []) := by
  have hflat : renderedPhases (groupPhases phases) = sortPhases phases := by
    unfold groupPhases
    rw [groupPhasesAux_flatten (sortPhases phases) H 0]
    rfl
  refine ⟨hflat, ?_, ?_, ?_, ?_⟩
  · rw [hflat]
    exact List.perm_insertionSort _ phases
  · rw [hflat]
    exact List.sorted_insertionSort _ phases
  · intro p hp href
    exact group_mem_of_referenced (sortPhases phases) H NC 0 p hp href
  · intro leader members hmem
    exact mem_groupPhasesAux_group (sortPhases phases) 0 leader members hmem

/-- Witness for C1: three phases, the second running parallel with the
first; adjacency holds and there is no chained reference. -/
theorem c1_groupPhases_renders_once_sorted_witness :
    ParallelAdjacent (sortPhases
      [⟨"A", none, some 0⟩, ⟨"B", some "A", some 1⟩, ⟨"C", none, some 2⟩]) ∧
    NoChainedParallel (sortPhases
      [⟨"A", none, some 0⟩, ⟨"B", some "A", some 1⟩, ⟨"C", none, some 2⟩]) ∧
    renderedPhases (groupPhases
        [⟨"A", none, some 0⟩, ⟨"B", some "A", some 1⟩, ⟨"C", none, some 2⟩]) =
      sortPhases [⟨"A", none, some 0⟩, ⟨"B", some "A", some 1⟩, ⟨"C", none, some 2⟩] ∧
    (renderedPhases (groupPhases
        [⟨"A", none, some 0⟩, ⟨"B", some "A", some 1⟩, ⟨"C", none, some 2⟩])).Perm
      [⟨"A", none, some 0⟩, ⟨"B", some "A", some 1⟩, ⟨"C", none, some 2⟩] :=
  ⟨by decide, by decide,
    (c1_groupPhases_renders_once_sorted _ (by decide) (by decide)).1,
    (c1_groupPhases_renders_once_sorted _ (by decide) (by decide)).2.1⟩

/-- C1 counterexample: with `B` declaring `parallel_with = "A"` but an
unrelated phase `X` sorted between `A` and `B`, the skip
`i += parallel.length + 1` lands on `B` itself: `B` is rendered twice
(once in the parallel group of `A`, once standalone) and `X` is never
rendered — the claim fails as stated for this input. -/
theorem c1_counterexample_nonadjacent_parallel :
    renderedPhases (groupPhases
        [⟨"A", none, some 0⟩, ⟨"X", none, some 1⟩, ⟨"B", some "A", some 2⟩]) =
      [⟨"A", none, some 0⟩, ⟨"B", some "A", some 2⟩, ⟨"B", some "A", some 2⟩] ∧
    (renderedPhases (groupPhases
        [⟨"A", none, some 0⟩, ⟨"X", none, some 1⟩, ⟨"B", some "A", some 2⟩])).count
      ⟨"B", some "A", some 2⟩ = 2 ∧
    (renderedPhases (groupPhases
        [⟨"A", none, some 0⟩, ⟨"X", none, some 1⟩, ⟨"B", some "A", some 2⟩])).count
      ⟨"X", none, some 1⟩ = 0 := by
  have hl : renderedPhases (groupPhases
      [⟨"A", none, some 0⟩, ⟨"X", none, some 1⟩, ⟨"B", some "A", some 2⟩]) =
      [⟨"A", none, some 0⟩, ⟨"B", some "A", some 2⟩, ⟨"B", some "A", some 2⟩] := by
    have hsort : sortPhases
        [⟨"A", none, some 0⟩, ⟨"X", none, some 1⟩, ⟨"B", some "A", some 2⟩] =
        [⟨"A", none, some 0⟩, ⟨"X", none, some 1⟩, ⟨"B", some "A", some 2⟩] := by
      decide
    unfold groupPhases
    rw [hsort]
    simp [groupPhasesAux, parallelOf, renderedPhases, blockPhases]
  refine ⟨hl, ?_, ?_⟩ <;> rw [hl] <;> decide

end Workflow
